import Mathlib

/-!
Shallow embedding of the derived-view engine of the Podcast Explorer
(`src/src/App.jsx`): the filter, sort and pagination stages and the
view-state coordinator (`PodcastProvider`), together with proofs of the
specification claims about them.

JavaScript strings are modelled as lists of characters, numbers holding
integral values (ids, epoch timestamps, page indices) as `Int`/`Nat`.
-/

/-- A JavaScript string, modelled characterwise. -/
abbrev JStr := List Char

/-- One catalog record (a show) as the API serves it and `App.jsx` consumes
it: `id`, `title`, `description`, `image`, `genres` (numeric category ids),
`seasons`, `updated` (a timestamp; `new Date(x).getTime()` is modelled as the
integer field itself). -/
structure ShowRec where
  id : Nat
  title : JStr
  description : JStr
  image : JStr
  genres : List Int
  seasons : Nat
  updated : Int
deriving Repr, DecidableEq

/-- `ITEMS_PER_PAGE` from `App.jsx`: the fixed page size. -/
def ITEMS_PER_PAGE : Nat := 12

/-- Models `String.prototype.toLowerCase`, applied characterwise. -/
def jsLower (s : JStr) : JStr := s.map Char.toLower

/-- `hay` starts with `needle` (helper for `jsIncludes`). -/
def jsStartsWith : JStr → JStr → Bool
  | _, [] => true
  | [], _ :: _ => false
  | a :: as, b :: bs => a == b && jsStartsWith as bs

/-- Models `String.prototype.includes`: substring containment. -/
def jsIncludes (hay needle : JStr) : Bool :=
  jsStartsWith hay needle ||
    match hay with
    | [] => false
    | _ :: t => jsIncludes t needle

/-- Models `Array.prototype.slice(start, stop)` (ECMAScript semantics:
negative indices count from the end, both indices clamped to `[0, length]`). -/
def jsSlice (l : List α) (start stop : Int) : List α :=
  let len : Int := l.length
  let s : Int := if start < 0 then max (len + start) 0 else min start len
  let e : Int := if stop < 0 then max (len + stop) 0 else min stop len
  (l.drop s.toNat).take (e - s).toNat

/-- One insertion step of the stable sort: `x` is placed after every element
`y` of the (already sorted) accumulator with `c y x ≤ 0`, exactly where the
ECMAScript stable `Array.prototype.sort` puts a later-input element. -/
def jsSortInsert (c : α → α → Int) (x : α) : List α → List α
  | [] => [x]
  | y :: ys => if c y x ≤ 0 then y :: jsSortInsert c x ys else x :: y :: ys

/-- Tail of the stable sort: fold the input in order into the accumulator. -/
def jsSortGo (c : α → α → Int) : List α → List α → List α
  | acc, [] => acc
  | acc, x :: xs => jsSortGo c (jsSortInsert c x acc) xs

/-- Models `Array.prototype.sort(c)`. ECMAScript requires the sort to be
stable; for a consistent comparator the stable sorted permutation is unique,
so this insertion sort computes exactly the array `sort` returns. -/
def jsSort (c : α → α → Int) (l : List α) : List α := jsSortGo c [] l

/-- The collation key used to model `String.prototype.localeCompare`:
primary strength is the case-folded text, ties are broken on the raw text. -/
def collKey (a : JStr) : Lex (JStr × JStr) := toLex (jsLower a, a)

/-- Models `String.prototype.localeCompare` (default locale): a total
comparison that is case-insensitive at primary strength and returns
`-1`/`0`/`1`; `0` exactly on identical strings. -/
def localeCompare (a b : JStr) : Int :=
  if collKey a < collKey b then -1 else if collKey b < collKey a then 1 else 0

/-- `dateComparer` from `sortedShows` in `App.jsx`:
`(a, b) => new Date(b.updated).getTime() - new Date(a.updated).getTime()`. -/
def dateComparer (a b : ShowRec) : Int := b.updated - a.updated

/-- `filteredAndSearchedShows` from `App.jsx`: first the genre filter (keep
shows whose `genres` contains the first active genre id, under numeric
equality), then the search filter (case-insensitive substring of title or
description). -/
def filteredAndSearchedShows (allShows : List ShowRec) (activeGenreIds : List Int)
    (searchTerm : JStr) : List ShowRec :=
  let result := allShows
  let result :=
    if 0 < activeGenreIds.length then
      result.filter (fun sh => sh.genres.contains activeGenreIds.headI)
    else result
  if searchTerm.isEmpty then result
  else
    let lowerCaseSearchTerm := jsLower searchTerm
    result.filter (fun sh =>
      jsIncludes (jsLower sh.title) lowerCaseSearchTerm ||
      jsIncludes (jsLower sh.description) lowerCaseSearchTerm)

/-- `sortedShows` from `App.jsx`: a `switch` on the sort key with cases
`title_asc` and `title_desc`; both `newest` and every other key fall into
the shared `default` branch sorting by `dateComparer`. -/
def sortedShows (shows : List ShowRec) (sortKey : String) : List ShowRec :=
  if sortKey = "title_asc" then
    jsSort (fun a b => localeCompare a.title b.title) shows
  else if sortKey = "title_desc" then
    jsSort (fun a b => localeCompare b.title a.title) shows
  else
    jsSort dateComparer shows

/-- `totalPages = Math.ceil(totalItems / ITEMS_PER_PAGE)` from `App.jsx`,
as ceiling division on naturals. -/
def totalPagesOf (totalItems : Nat) : Nat :=
  (totalItems + (ITEMS_PER_PAGE - 1)) / ITEMS_PER_PAGE

/-- `paginatedShows` from `App.jsx`:
`sortedShows.slice((currentPage - 1) * ITEMS_PER_PAGE, startIndex + ITEMS_PER_PAGE)`. -/
def paginatedShows (sorted : List ShowRec) (currentPage : Int) : List ShowRec :=
  let startIndex := (currentPage - 1) * (ITEMS_PER_PAGE : Int)
  let endIndex := startIndex + (ITEMS_PER_PAGE : Int)
  jsSlice sorted startIndex endIndex

/-- The page-sync `useEffect` of `App.jsx` (lines 263-271), as a function of
the current page and the freshly computed page count. -/
def pageSync (currentPage : Int) (totalPages : Nat) : Int :=
  if currentPage > (totalPages : Int) ∧ 0 < totalPages then (totalPages : Int)
  else if currentPage = 0 ∧ 0 < totalPages then 1
  else if 1 < currentPage ∧ totalPages = 0 then 1
  else currentPage

/-- The list-view state of `PodcastProvider` (the detail-view state does not
interact with the derived-view engine and is omitted). -/
structure AppState where
  allShows : List ShowRec
  searchTerm : JStr
  sortKey : String
  activeGenreIds : List Int
  currentPage : Int
  isLoading : Bool
  errorMsg : Option JStr
deriving Repr, DecidableEq

/-- The initial `useState` values of `PodcastProvider`. -/
def INIT : AppState :=
  { allShows := []
    searchTerm := []
    sortKey := "newest"
    activeGenreIds := []
    currentPage := 1
    isLoading := true
    errorMsg := none }

/-- `handleSearchChange`: store the input value and reset to page 1. -/
def handleSearchChange (st : AppState) (value : JStr) : AppState :=
  { st with searchTerm := value, currentPage := 1 }

/-- `handleSortChange`: store the selected sort key and reset to page 1. -/
def handleSortChange (st : AppState) (value : String) : AppState :=
  { st with sortKey := value, currentPage := 1 }

/-- `handleGenreSelect`: `selectedId === 0` (the "All Genres" sentinel) clears
the selection, any other id replaces it wholesale; reset to page 1. -/
def handleGenreSelect (st : AppState) (selectedId : Int) : AppState :=
  { st with activeGenreIds := if selectedId = 0 then [] else [selectedId]
            currentPage := 1 }

/-- `handlePageChange`: store the requested page number unconditionally. -/
def handlePageChange (st : AppState) (pageNumber : Int) : AppState :=
  { st with currentPage := pageNumber }

/-- `handleReset`: restore all view parameters to their defaults. -/
def handleReset (st : AppState) : AppState :=
  { st with searchTerm := [], sortKey := "newest", activeGenreIds := [],
            currentPage := 1 }

/-- The error message `fetchAllPodcasts` rethrows after `fetchWithRetry`
exhausts its attempts. -/
def apiErrorMsg : JStr := "Could not connect to the podcast API.".toList

/-- `maxRetries` inside `fetchWithRetry`. -/
def maxRetries : Nat := 3

/-- The retry loop of `fetchWithRetry`: `att i` is the outcome of the i-th
network attempt (the network is the external environment); the loop returns
the first success and otherwise throws the last error seen. -/
def fetchRetryGo (att : Nat → Except JStr (List ShowRec)) (lastError : Option JStr) :
    Nat → Nat → Except JStr (List ShowRec)
  | _, 0 => Except.error (lastError.getD [])
  | i, fuel + 1 =>
    match att i with
    | Except.ok d => Except.ok d
    | Except.error e => fetchRetryGo att (some e) (i + 1) fuel

/-- `fetchWithRetry` from `App.jsx`: up to `maxRetries` attempts. -/
def fetchWithRetry (att : Nat → Except JStr (List ShowRec)) :
    Except JStr (List ShowRec) :=
  fetchRetryGo att none 0 maxRetries

/-- `fetchAllPodcasts`: on any retry-exhausted failure, rethrow the fixed
connection-error message. -/
def fetchAllPodcasts (att : Nat → Except JStr (List ShowRec)) :
    Except JStr (List ShowRec) :=
  match fetchWithRetry att with
  | Except.ok d => Except.ok d
  | Except.error _ => Except.error apiErrorMsg

/-- `loadShows` from `App.jsx`: on success store the records and clear the
error; on failure store the error message and leave `allShows` untouched;
either way loading ends. -/
def loadShows (st : AppState) (att : Nat → Except JStr (List ShowRec)) : AppState :=
  match fetchAllPodcasts att with
  | Except.ok d => { st with allShows := d, errorMsg := none, isLoading := false }
  | Except.error e => { st with errorMsg := some e, isLoading := false }

/-- The filtered result the memo `filteredAndSearchedShows` holds for a state. -/
def stFiltered (st : AppState) : List ShowRec :=
  filteredAndSearchedShows st.allShows st.activeGenreIds st.searchTerm

/-- The sorted result the memo `sortedShows` holds for a state. -/
def stSorted (st : AppState) : List ShowRec := sortedShows (stFiltered st) st.sortKey

/-- `totalItems` for a state. -/
def stTotalItems (st : AppState) : Nat := (stSorted st).length

/-- `totalPages` for a state. -/
def stTotalPages (st : AppState) : Nat := totalPagesOf (stTotalItems st)

/-- `paginatedShows` for a state: the served page slice. -/
def stPaginated (st : AppState) : List ShowRec :=
  paginatedShows (stSorted st) st.currentPage

/-- One public operation on the coordinator (a UI event or the fetch
completing; `fetch att` carries the network environment). -/
inductive Op where
  | search (value : JStr)
  | sortBy (value : String)
  | genre (selectedId : Int)
  | page (pageNumber : Int)
  | reset
  | fetch (att : Nat → Except JStr (List ShowRec))

/-- Dispatch an operation to its handler. -/
def applyOp (st : AppState) : Op → AppState
  | Op.search v => handleSearchChange st v
  | Op.sortBy v => handleSortChange st v
  | Op.genre v => handleGenreSelect st v
  | Op.page n => handlePageChange st n
  | Op.reset => handleReset st
  | Op.fetch att => loadShows st att

/-- Run the page-sync effect on a state (React re-runs it after every
recompute; a single run is already a fixpoint of `pageSync`). -/
def syncState (st : AppState) : AppState :=
  { st with currentPage := pageSync st.currentPage (stTotalPages st) }

/-- One full coordinator step: apply the handler, then let the sync effect
settle. -/
def stepOp (st : AppState) (o : Op) : AppState := syncState (applyOp st o)

/-- The state after a sequence of public operations from the initial state:
exactly the reachable coordinator states. -/
def runOps (ops : List Op) : AppState := ops.foldl stepOp INIT

/-- A concrete show used in witnesses and counterexamples. -/
def showA : ShowRec :=
  { id := 1
    title := "True Crime Stories".toList
    description := "Real cases examined.".toList
    image := "https://example.test/a.png".toList
    genres := [1, 15]
    seasons := 3
    updated := 200 }

/-- A second concrete show used in witnesses and counterexamples. -/
def showB : ShowRec :=
  { id := 2
    title := "Comedy Hour".toList
    description := "Weekly laughs.".toList
    image := "https://example.test/b.png".toList
    genres := [4]
    seasons := 1
    updated := 100 }

/-- A state whose source set holds one show (used in witnesses). -/
def stOne : AppState := { INIT with allShows := [showA], isLoading := false }

/-- The single-select genre invariant: the active selection is empty or a
single non-sentinel id. -/
def GenreInv (st : AppState) : Prop :=
  st.activeGenreIds = [] ∨ ∃ g : Int, g ≠ 0 ∧ st.activeGenreIds = [g]

/-- A network environment in which every attempt fails (used in witnesses). -/
def attDown : Nat → Except JStr (List ShowRec) :=
  fun _ => Except.error "network down".toList

/-! ## General facts about the stable sort `jsSort` -/

theorem jsSortInsert_perm (c : α → α → Int) (x : α) (l : List α) :
    (jsSortInsert c x l).Perm (x :: l) := by
  induction l with
  | nil => simp [jsSortInsert]
  | cons y ys ih =>
    simp only [jsSortInsert]
    split
    · exact (ih.cons y).trans (List.Perm.swap x y ys)
    · exact List.Perm.refl _

theorem jsSortInsert_pairwise (c : α → α → Int)
    (htot : ∀ a b : α, c a b ≤ 0 ∨ c b a ≤ 0)
    (htrans : ∀ a b d : α, c a b ≤ 0 → c b d ≤ 0 → c a d ≤ 0)
    (x : α) (l : List α) (hl : l.Pairwise (fun a b => c a b ≤ 0)) :
    (jsSortInsert c x l).Pairwise (fun a b => c a b ≤ 0) := by
  induction l with
  | nil => simp [jsSortInsert]
  | cons y ys ih =>
    rcases List.pairwise_cons.1 hl with ⟨hy, hys⟩
    simp only [jsSortInsert]
    split
    case isTrue h =>
      refine List.pairwise_cons.2 ⟨?_, ih hys⟩
      intro z hz
      rcases List.mem_cons.1 ((jsSortInsert_perm c x ys).mem_iff.1 hz) with rfl | hz'
      · exact h
      · exact hy z hz'
    case isFalse h =>
      have hxy : c x y ≤ 0 := (htot x y).resolve_right h
      refine List.pairwise_cons.2 ⟨?_, hl⟩
      intro z hz
      rcases List.mem_cons.1 hz with rfl | hz'
      · exact hxy
      · exact htrans x y z hxy (hy z hz')

theorem jsSortGo_perm (c : α → α → Int) (l acc : List α) :
    (jsSortGo c acc l).Perm (acc ++ l) := by
  induction l generalizing acc with
  | nil => simp [jsSortGo]
  | cons x xs ih =>
    simp only [jsSortGo]
    refine (ih _).trans ?_
    refine ((jsSortInsert_perm c x acc).append_right xs).trans ?_
    exact List.perm_middle.symm

theorem jsSortGo_pairwise (c : α → α → Int)
    (htot : ∀ a b : α, c a b ≤ 0 ∨ c b a ≤ 0)
    (htrans : ∀ a b d : α, c a b ≤ 0 → c b d ≤ 0 → c a d ≤ 0)
    (l acc : List α) (hacc : acc.Pairwise (fun a b => c a b ≤ 0)) :
    (jsSortGo c acc l).Pairwise (fun a b => c a b ≤ 0) := by
  induction l generalizing acc with
  | nil => exact hacc
  | cons x xs ih => exact ih _ (jsSortInsert_pairwise c htot htrans x acc hacc)

theorem jsSortInsert_filter (c : α → α → Int) (p : α → Bool)
    (htrans : ∀ a b d : α, c a b ≤ 0 → c b d ≤ 0 → c a d ≤ 0)
    (hp : ∀ a b : α, p a = true → p b = true → c b a ≤ 0)
    (x : α) (l : List α) (hl : l.Pairwise (fun a b => c a b ≤ 0)) :
    (jsSortInsert c x l).filter p =
      if p x then l.filter p ++ [x] else l.filter p := by
  induction l with
  | nil => cases hpx : p x <;> simp [jsSortInsert, hpx]
  | cons y ys ih =>
    rcases List.pairwise_cons.1 hl with ⟨hy, hys⟩
    simp only [jsSortInsert]
    split
    case isTrue h =>
      cases hpx : p x <;> cases hpy : p y <;>
        simp [List.filter_cons, hpx, hpy, ih hys]
    case isFalse h =>
      cases hpx : p x with
      | false => simp [List.filter_cons, hpx]
      | true =>
        have hnil : (y :: ys).filter p = [] := by
          rw [List.filter_eq_nil_iff]
          intro z hz hpz
          have hzx : c z x ≤ 0 := hp x z hpx hpz
          rcases List.mem_cons.1 hz with rfl | hz'
          · exact h hzx
          · exact h (htrans y z x (hy z hz') hzx)
        simp [List.filter_cons, hpx, hnil, List.filter_eq_nil_iff.1 hnil]

theorem jsSortGo_filter (c : α → α → Int) (p : α → Bool)
    (htot : ∀ a b : α, c a b ≤ 0 ∨ c b a ≤ 0)
    (htrans : ∀ a b d : α, c a b ≤ 0 → c b d ≤ 0 → c a d ≤ 0)
    (hp : ∀ a b : α, p a = true → p b = true → c b a ≤ 0)
    (l acc : List α) (hacc : acc.Pairwise (fun a b => c a b ≤ 0)) :
    (jsSortGo c acc l).filter p = acc.filter p ++ l.filter p := by
  induction l generalizing acc with
  | nil => simp [jsSortGo]
  | cons x xs ih =>
    simp only [jsSortGo]
    rw [ih _ (jsSortInsert_pairwise c htot htrans x acc hacc),
      jsSortInsert_filter c p htrans hp x acc hacc]
    cases hpx : p x <;> simp [List.filter_cons, hpx]

theorem jsSort_perm (c : α → α → Int) (l : List α) : (jsSort c l).Perm l := by
  simpa using jsSortGo_perm c l []

theorem jsSort_pairwise (c : α → α → Int)
    (htot : ∀ a b : α, c a b ≤ 0 ∨ c b a ≤ 0)
    (htrans : ∀ a b d : α, c a b ≤ 0 → c b d ≤ 0 → c a d ≤ 0)
    (l : List α) : (jsSort c l).Pairwise (fun a b => c a b ≤ 0) :=
  jsSortGo_pairwise c htot htrans l [] List.Pairwise.nil

theorem jsSort_filter (c : α → α → Int) (p : α → Bool)
    (htot : ∀ a b : α, c a b ≤ 0 ∨ c b a ≤ 0)
    (htrans : ∀ a b d : α, c a b ≤ 0 → c b d ≤ 0 → c a d ≤ 0)
    (hp : ∀ a b : α, p a = true → p b = true → c b a ≤ 0)
    (l : List α) : (jsSort c l).filter p = l.filter p := by
  simpa using jsSortGo_filter c p htot htrans hp l [] List.Pairwise.nil

/-! ## Facts about the comparators -/

theorem localeCompare_le_iff (a b : JStr) :
    localeCompare a b ≤ 0 ↔ collKey a ≤ collKey b := by
  unfold localeCompare
  split
  case isTrue h => simp [le_of_lt h]
  case isFalse h =>
    split
    case isTrue h' => simp [not_le.2 h']
    case isFalse h' => simp [le_of_not_lt h']

theorem localeCompare_self (a : JStr) : localeCompare a a = 0 := by
  simp [localeCompare]

theorem localeCompare_total (a b : JStr) :
    localeCompare a b ≤ 0 ∨ localeCompare b a ≤ 0 := by
  rw [localeCompare_le_iff, localeCompare_le_iff]
  exact le_total _ _

theorem localeCompare_trans (a b d : JStr)
    (h₁ : localeCompare a b ≤ 0) (h₂ : localeCompare b d ≤ 0) :
    localeCompare a d ≤ 0 := by
  rw [localeCompare_le_iff] at h₁ h₂ ⊢
  exact le_trans h₁ h₂

theorem dateComparer_total (a b : ShowRec) :
    dateComparer a b ≤ 0 ∨ dateComparer b a ≤ 0 := by
  unfold dateComparer; omega

theorem dateComparer_trans (a b d : ShowRec)
    (h₁ : dateComparer a b ≤ 0) (h₂ : dateComparer b d ≤ 0) :
    dateComparer a d ≤ 0 := by
  unfold dateComparer at h₁ h₂ ⊢; omega

theorem sortedShows_newest (l : List ShowRec) :
    sortedShows l "newest" = jsSort dateComparer l := rfl

theorem sortedShows_title_asc (l : List ShowRec) :
    sortedShows l "title_asc" = jsSort (fun a b => localeCompare a.title b.title) l := rfl

theorem sortedShows_title_desc (l : List ShowRec) :
    sortedShows l "title_desc" = jsSort (fun a b => localeCompare b.title a.title) l := rfl

theorem sortedShows_default (l : List ShowRec) (k : String)
    (h₁ : k ≠ "title_asc") (h₂ : k ≠ "title_desc") :
    sortedShows l k = jsSort dateComparer l := by
  unfold sortedShows
  rw [if_neg h₁, if_neg h₂]

/-! ## Facts about slicing, pagination and the page-sync effect -/

theorem jsSlice_natCast (l : List α) (a b : Nat) :
    jsSlice l (a : Int) ((a : Int) + (b : Int)) = (l.drop a).take b := by
  simp only [jsSlice]
  have h0 : ¬ ((a : Int) < 0) := by omega
  have h1 : ¬ ((a : Int) + (b : Int) < 0) := by omega
  rw [if_neg h0, if_neg h1]
  have hs : (min (a : Int) (l.length : Int)).toNat = min a l.length := by omega
  have he : (min ((a : Int) + (b : Int)) (l.length : Int)
      - min (a : Int) (l.length : Int)).toNat = min (a + b) l.length - min a l.length := by
    omega
  rw [hs, he]
  rcases le_or_lt a l.length with hle | hlt
  · rw [min_eq_left hle, List.take_eq_take]
    simp only [List.length_drop]
    omega
  · rw [min_eq_right (le_of_lt hlt), List.drop_length,
      List.drop_eq_nil_of_le (le_of_lt hlt)]
    simp

theorem paginatedShows_eq (l : List ShowRec) (i : Nat) :
    paginatedShows l ((i : Int) + 1) = (l.drop (i * ITEMS_PER_PAGE)).take ITEMS_PER_PAGE := by
  have h1 : ((i : Int) + 1 - 1) * ((ITEMS_PER_PAGE : Nat) : Int)
      = ((i * ITEMS_PER_PAGE : Nat) : Int) := by
    push_cast
    ring
  simp only [paginatedShows]
  rw [h1]
  exact jsSlice_natCast l (i * ITEMS_PER_PAGE) ITEMS_PER_PAGE

theorem pagesFlatten (l : List ShowRec) (k : Nat) :
    ((List.range k).map (fun i => (l.drop (i * ITEMS_PER_PAGE)).take ITEMS_PER_PAGE)).flatten
      = l.take (k * ITEMS_PER_PAGE) := by
  induction k with
  | zero => simp
  | succ k ih =>
    rw [List.range_succ, List.map_append, List.flatten_append, ih]
    simp only [List.map_cons, List.map_nil, List.flatten_cons, List.flatten_nil,
      List.append_nil]
    rw [Nat.succ_mul, List.take_add]

theorem le_totalPages_mul (n : Nat) : n ≤ totalPagesOf n * ITEMS_PER_PAGE := by
  simp only [totalPagesOf, ITEMS_PER_PAGE]
  omega

theorem pageSync_one (tp : Nat) : pageSync 1 tp = 1 := by
  unfold pageSync
  split_ifs <;> omega

/-! ## Claim C1 -/

/-- C1 counterexample: from the initial coordinator state (page 1, no
records), the out-of-range request `handlePageChange(-1)` is not a no-op:
`pageIndex` becomes `-1` and the sync effect does not restore it to 1. -/
theorem C1_counterexample :
    (runOps [Op.page (-1)]).currentPage = -1
    ∧ ¬ (1 ≤ (-1 : Int) ∧ (-1 : Int) ≤ (stTotalPages INIT : Int))
    ∧ INIT.currentPage = 1 := by
  refine ⟨by decide, by decide, rfl⟩

/-- C1 (amended): `handlePageChange(n)` stores `n` unconditionally; the
subsequent page-sync effect then applies `pageSync` (clamping
`n > totalPages > 0` down to `totalPages`, raising `n = 0` to 1 when pages
exist, resetting `n > 1` to 1 when there are no pages, and leaving every
other value — in particular any `n ≤ -1` — unchanged). When
`1 ≤ n ≤ totalPages` the resulting `pageIndex` is exactly `n`. -/
theorem C1_handlePageChange (st : AppState) (n : Int) :
    (stepOp st (Op.page n)).currentPage = pageSync n (stTotalPages st)
    ∧ (1 ≤ n ∧ n ≤ (stTotalPages st : Int) →
        (stepOp st (Op.page n)).currentPage = n) := by
  have h : (stepOp st (Op.page n)).currentPage = pageSync n (stTotalPages st) := rfl
  refine ⟨h, fun hr => ?_⟩
  rw [h]
  unfold pageSync
  split_ifs <;> omega

/-- C1 witness: in a one-show state (`totalPages = 1`), requesting page 1 is
in range and yields page 1. -/
theorem C1_handlePageChange_witness :
    (1 ≤ (1 : Int) ∧ (1 : Int) ≤ (stTotalPages stOne : Int))
    ∧ ((stepOp stOne (Op.page 1)).currentPage = pageSync 1 (stTotalPages stOne)
      ∧ (1 ≤ (1 : Int) ∧ (1 : Int) ≤ (stTotalPages stOne : Int) →
          (stepOp stOne (Op.page 1)).currentPage = 1)) :=
  ⟨by decide, C1_handlePageChange stOne 1⟩

/-! ## Claim C2 -/

/-- C2 counterexample: the code has no `oldest` sort key. Invoking the sort
stage with key `oldest` on records whose `lastUpdated` values strictly
increase in input order falls into the `default` branch and returns the
records descending by `lastUpdated` — not ascending as the claim specifies. -/
theorem C2_counterexample :
    sortedShows [showB, showA] "oldest" = [showA, showB]
    ∧ ¬ (sortedShows [showB, showA] "oldest").Pairwise
        (fun a b => a.updated ≤ b.updated) := by
  constructor
  · decide
  · intro hpair
    have : showA.updated ≤ showB.updated := by
      have h : sortedShows [showB, showA] "oldest" = [showA, showB] := by decide
      rw [h] at hpair
      exact (List.pairwise_cons.1 hpair).1 showB (by simp)
    simp [showA, showB] at this

/-- C2 (amended): the sort-key vocabulary the code implements is `newest`,
`title_asc`, `title_desc` (there is no `oldest`). For each of these the sort
stage returns a permutation of its input, ordered as specified — `newest`
descending by `lastUpdated`, `title_asc`/`title_desc` ascending/descending
under the locale collation on titles — and stably: records with equal sort
keys (equal timestamps, resp. equal titles) retain their relative input
order. -/
theorem C2_sortStage (l : List ShowRec) :
    ((sortedShows l "newest").Perm l
      ∧ (sortedShows l "newest").Pairwise (fun a b => b.updated ≤ a.updated)
      ∧ ∀ t : Int, (sortedShows l "newest").filter (fun s => s.updated == t)
          = l.filter (fun s => s.updated == t))
    ∧ ((sortedShows l "title_asc").Perm l
      ∧ (sortedShows l "title_asc").Pairwise
          (fun a b => localeCompare a.title b.title ≤ 0)
      ∧ ∀ w : JStr, (sortedShows l "title_asc").filter (fun s => s.title == w)
          = l.filter (fun s => s.title == w))
    ∧ ((sortedShows l "title_desc").Perm l
      ∧ (sortedShows l "title_desc").Pairwise
          (fun a b => localeCompare b.title a.title ≤ 0)
      ∧ ∀ w : JStr, (sortedShows l "title_desc").filter (fun s => s.title == w)
          = l.filter (fun s => s.title == w)) := by
  rw [sortedShows_newest, sortedShows_title_asc, sortedShows_title_desc]
  refine ⟨⟨jsSort_perm _ _, ?_, ?_⟩, ⟨jsSort_perm _ _, ?_, ?_⟩,
    ⟨jsSort_perm _ _, ?_, ?_⟩⟩
  · exact (jsSort_pairwise dateComparer dateComparer_total dateComparer_trans l).imp
      (fun h => by unfold dateComparer at h; omega)
  · intro t
    refine jsSort_filter dateComparer _ dateComparer_total dateComparer_trans
      (fun a b ha hb => ?_) l
    have ha' : a.updated = t := by simpa using ha
    have hb' : b.updated = t := by simpa using hb
    unfold dateComparer
    omega
  · exact jsSort_pairwise _ (fun a b => localeCompare_total a.title b.title)
      (fun a b d h₁ h₂ => localeCompare_trans a.title b.title d.title h₁ h₂) l
  · intro w
    refine jsSort_filter _ _ (fun a b => localeCompare_total a.title b.title)
      (fun a b d h₁ h₂ => localeCompare_trans a.title b.title d.title h₁ h₂)
      (fun a b ha hb => ?_) l
    have ha' : a.title = w := by simpa using ha
    have hb' : b.title = w := by simpa using hb
    rw [ha', hb', localeCompare_self]
  · exact jsSort_pairwise _ (fun a b => (localeCompare_total a.title b.title).symm)
      (fun a b d h₁ h₂ => localeCompare_trans d.title b.title a.title h₂ h₁) l
  · intro w
    refine jsSort_filter _ _ (fun a b => (localeCompare_total a.title b.title).symm)
      (fun a b d h₁ h₂ => localeCompare_trans d.title b.title a.title h₂ h₁)
      (fun a b ha hb => ?_) l
    have ha' : a.title = w := by simpa using ha
    have hb' : b.title = w := by simpa using hb
    rw [ha', hb', localeCompare_self]

/-! ## Claim C3 -/

/-- C3 counterexample: an out-of-enum sort key does not fail — the stage is a
total function and silently returns the `default` (newest-first) ordering. -/
theorem C3_counterexample :
    sortedShows [showB, showA] "bogus" = [showA, showB] := by
  decide

/-- C3 (amended): a sort key other than `title_asc`/`title_desc` falls
through to the `default` branch of the `switch` and produces the same
ordering as `newest`; no `InvalidParameter` error exists in the code. -/
theorem C3_unknownKey (l : List ShowRec) (k : String)
    (h₁ : k ≠ "title_asc") (h₂ : k ≠ "title_desc") :
    sortedShows l k = sortedShows l "newest" := by
  rw [sortedShows_default l k h₁ h₂, sortedShows_newest]

/-- C3 witness: the out-of-enum key `oldest` yields the `newest` ordering. -/
theorem C3_unknownKey_witness :
    ("oldest" ≠ "title_asc" ∧ "oldest" ≠ "title_desc")
    ∧ sortedShows [showB, showA] "oldest" = sortedShows [showB, showA] "newest" :=
  ⟨⟨by decide, by decide⟩, C3_unknownKey [showB, showA] "oldest" (by decide) (by decide)⟩

/-! ## Claim C4 -/

/-- C4: the filter stage keeps exactly the records that match the
case-insensitive substring query (title OR description, vacuously when the
query is empty) AND contain the selected genre id (vacuously when none is
selected), and it preserves the relative input order (its output is a
sublist of its input). -/
theorem C4_filterStage (shows : List ShowRec) (gids : List Int) (q : JStr) :
    filteredAndSearchedShows shows gids q
      = shows.filter (fun sh =>
          (q.isEmpty || jsIncludes (jsLower sh.title) (jsLower q)
            || jsIncludes (jsLower sh.description) (jsLower q))
          && (gids.isEmpty || sh.genres.contains gids.headI))
    ∧ (filteredAndSearchedShows shows gids q).Sublist shows := by
  have h : filteredAndSearchedShows shows gids q
      = shows.filter (fun sh =>
          (q.isEmpty || jsIncludes (jsLower sh.title) (jsLower q)
            || jsIncludes (jsLower sh.description) (jsLower q))
          && (gids.isEmpty || sh.genres.contains gids.headI)) := by
    cases gids with
    | nil =>
      cases hq : q.isEmpty <;>
        simp [filteredAndSearchedShows, hq]
    | cons g gs =>
      cases hq : q.isEmpty <;>
        simp [filteredAndSearchedShows, hq, List.filter_filter]
  exact ⟨h, by rw [h]; exact List.filter_sublist shows⟩

/-! ## Claim C5 -/

/-- C5: every page slice of the filtered-and-sorted list has length at most
`ITEMS_PER_PAGE`, and the concatenation of the slices for pages
1..`totalPages` reconstructs the filtered-and-sorted list exactly — no
record duplicated, none omitted. -/
theorem C5_pagination (st : AppState) :
    (∀ p : Nat,
      (paginatedShows (stSorted st) ((p : Int) + 1)).length ≤ ITEMS_PER_PAGE)
    ∧ ((List.range (stTotalPages st)).map
        (fun i : Nat => paginatedShows (stSorted st) ((i : Int) + 1))).flatten
      = stSorted st := by
  constructor
  · intro p
    rw [paginatedShows_eq]
    exact List.length_take_le _ _
  · have hm : (fun i : Nat => paginatedShows (stSorted st) ((i : Int) + 1))
        = fun i : Nat =>
            ((stSorted st).drop (i * ITEMS_PER_PAGE)).take ITEMS_PER_PAGE :=
      funext (fun i => paginatedShows_eq _ i)
    rw [hm, pagesFlatten]
    refine List.take_of_length_le ?_
    have h := le_totalPages_mul (stSorted st).length
    simpa [stTotalPages, stTotalItems] using h

/-! ## Claim C6 -/

/-- C6: `totalPages` is the ceiling of `totalItems / ITEMS_PER_PAGE`: it is 0
exactly on an empty result set, and for a non-empty one it is the unique
page count `tp ≥ 1` with `(tp - 1) * pageSize < totalItems ≤ tp * pageSize`
(equivalently `max(1, ceil(len / pageSize))`). -/
theorem C6_totalPages (st : AppState) :
    (stTotalItems st = 0 → stTotalPages st = 0)
    ∧ (0 < stTotalItems st →
        1 ≤ stTotalPages st
        ∧ stTotalItems st ≤ stTotalPages st * ITEMS_PER_PAGE
        ∧ (stTotalPages st - 1) * ITEMS_PER_PAGE < stTotalItems st) := by
  have h : stTotalPages st
      = (stTotalItems st + (ITEMS_PER_PAGE - 1)) / ITEMS_PER_PAGE := rfl
  rw [h]
  simp only [ITEMS_PER_PAGE]
  constructor <;> intro h0 <;> omega

/-- C6 witness: in the one-show state the result set is non-empty and the
page count satisfies the ceiling characterization. -/
theorem C6_totalPages_witness :
    0 < stTotalItems stOne
    ∧ 1 ≤ stTotalPages stOne
    ∧ stTotalItems stOne ≤ stTotalPages stOne * ITEMS_PER_PAGE
    ∧ (stTotalPages stOne - 1) * ITEMS_PER_PAGE < stTotalItems stOne :=
  ⟨by decide, (C6_totalPages stOne).2 (by decide)⟩

/-! ## Claim C7 -/

/-- C7 counterexample: the page-sync effect does not restore every
out-of-range `pageIndex`. After a failed load (`totalPages = 0`) the public
operation `handlePageChange(0)` leaves `pageIndex = 0`, outside
`[1, max(1, totalPages)]`, after the recompute settles. -/
theorem C7_counterexample :
    ¬ (1 ≤ (runOps [Op.fetch attDown, Op.page 0]).currentPage
      ∧ (runOps [Op.fetch attDown, Op.page 0]).currentPage
          ≤ max 1 ((stTotalPages (runOps [Op.fetch attDown, Op.page 0]) : Int))) := by
  decide

/-- C7 (amended): provided `pageIndex` is at least 1 when the recompute
starts, the page-sync effect leaves it in `[1, max(1, totalPages)]` after
any operation; values below 1 (reachable through `handlePageChange`) are the
only ones the sync can leave dangling. -/
theorem C7_pageClamp (st : AppState) (o : Op)
    (h : 1 ≤ (applyOp st o).currentPage) :
    1 ≤ (stepOp st o).currentPage
    ∧ (stepOp st o).currentPage ≤ max 1 ((stTotalPages (applyOp st o) : Int)) := by
  have hcp : (stepOp st o).currentPage
      = pageSync (applyOp st o).currentPage (stTotalPages (applyOp st o)) := rfl
  rw [hcp]
  unfold pageSync
  split_ifs <;> omega

/-- C7 witness: from the initial empty state, requesting page 2 starts at
`pageIndex = 2 ≥ 1` and the sync clamps it back into `[1, max(1, 0)]`. -/
theorem C7_pageClamp_witness :
    1 ≤ (applyOp INIT (Op.page 2)).currentPage
    ∧ (1 ≤ (stepOp INIT (Op.page 2)).currentPage
      ∧ (stepOp INIT (Op.page 2)).currentPage
          ≤ max 1 ((stTotalPages (applyOp INIT (Op.page 2)) : Int))) :=
  ⟨by decide, C7_pageClamp INIT (Op.page 2) (by decide)⟩

/-! ## Claim C8 -/

/-- C8: changing the query, the sort key or the genre selection resets
`pageIndex` to 1 as part of the same operation (and the sync effect keeps
it there). -/
theorem C8_resetPage (st : AppState) (v : JStr) (k : String) (g : Int) :
    (stepOp st (Op.search v)).currentPage = 1
    ∧ (stepOp st (Op.sortBy k)).currentPage = 1
    ∧ (stepOp st (Op.genre g)).currentPage = 1 := by
  refine ⟨?_, ?_, ?_⟩ <;> exact pageSync_one _

/-! ## Claim C9 -/

/-- C9: when every one of the `maxRetries = 3` fetch attempts fails, the
coordinator ends in an explicit error state: the error message is populated
with the fixed connection-failure text, the source record set stays empty,
and the served derived view has an empty page slice and `totalPages = 0`;
loading has ended and no exception escapes (the step is a total function). -/
theorem C9_fetchFailure (att : Nat → Except JStr (List ShowRec))
    (h : ∀ i, i < maxRetries → ∃ e, att i = Except.error e) :
    (stepOp INIT (Op.fetch att)).errorMsg = some apiErrorMsg
    ∧ (stepOp INIT (Op.fetch att)).allShows = []
    ∧ stPaginated (stepOp INIT (Op.fetch att)) = []
    ∧ stTotalPages (stepOp INIT (Op.fetch att)) = 0
    ∧ (stepOp INIT (Op.fetch att)).isLoading = false := by
  obtain ⟨e0, h0⟩ := h 0 (by decide)
  obtain ⟨e1, h1⟩ := h 1 (by decide)
  obtain ⟨e2, h2⟩ := h 2 (by decide)
  have hf : fetchAllPodcasts att = Except.error apiErrorMsg := by
    unfold fetchAllPodcasts fetchWithRetry maxRetries
    simp [fetchRetryGo, h0, h1, h2]
  have ha : applyOp INIT (Op.fetch att)
      = { INIT with errorMsg := some apiErrorMsg, isLoading := false } := by
    show loadShows INIT att = _
    unfold loadShows
    rw [hf]
  have hstep : stepOp INIT (Op.fetch att)
      = { INIT with errorMsg := some apiErrorMsg, isLoading := false } := by
    show syncState (applyOp INIT (Op.fetch att)) = _
    rw [ha]
    decide
  rw [hstep]
  exact ⟨rfl, rfl, by decide, by decide, rfl⟩

/-- C9 witness: a concrete always-failing network environment. -/
theorem C9_fetchFailure_witness :
    (∀ i, i < maxRetries → ∃ e, attDown i = Except.error e)
    ∧ ((stepOp INIT (Op.fetch attDown)).errorMsg = some apiErrorMsg
      ∧ (stepOp INIT (Op.fetch attDown)).allShows = []
      ∧ stPaginated (stepOp INIT (Op.fetch attDown)) = []
      ∧ stTotalPages (stepOp INIT (Op.fetch attDown)) = 0
      ∧ (stepOp INIT (Op.fetch attDown)).isLoading = false) :=
  ⟨fun _ _ => ⟨"network down".toList, rfl⟩,
    C9_fetchFailure attDown (fun _ _ => ⟨"network down".toList, rfl⟩)⟩

/-! ## Claim C10 -/

theorem stepOp_genreInv (st : AppState) (o : Op) (h : GenreInv st) :
    GenreInv (stepOp st o) := by
  cases o with
  | search v => exact h
  | sortBy v => exact h
  | page n => exact h
  | reset => exact Or.inl rfl
  | fetch att =>
    have hg : (stepOp st (Op.fetch att)).activeGenreIds = st.activeGenreIds := by
      show (loadShows st att).activeGenreIds = st.activeGenreIds
      unfold loadShows
      cases fetchAllPodcasts att <;> rfl
    unfold GenreInv at h ⊢
    rw [hg]
    exact h
  | genre g =>
    rcases eq_or_ne g 0 with hg | hg
    · left
      show (if g = 0 then ([] : List Int) else [g]) = []
      simp [hg]
    · right
      refine ⟨g, hg, ?_⟩
      show (if g = 0 then ([] : List Int) else [g]) = [g]
      simp [hg]

/-- C10 (implicit): in every reachable coordinator state the active genre
selection is empty or a single non-zero id — `handleGenreSelect` replaces
the whole selection and maps the sentinel 0 to the empty selection — and
the filter stage only ever consults the first selected id. -/
theorem C10_singleSelect :
    (∀ ops : List Op, (runOps ops).activeGenreIds = []
      ∨ ∃ g : Int, g ≠ 0 ∧ (runOps ops).activeGenreIds = [g])
    ∧ (∀ (shows : List ShowRec) (g : Int) (rest : List Int) (q : JStr),
        filteredAndSearchedShows shows (g :: rest) q
          = filteredAndSearchedShows shows [g] q)
    ∧ (∀ (st : AppState) (g : Int),
        (stepOp st (Op.genre g)).activeGenreIds
          = if g = 0 then [] else [g]) := by
  refine ⟨?_, ?_, ?_⟩
  · intro ops
    have key : ∀ (l : List Op) (st : AppState),
        GenreInv st → GenreInv (l.foldl stepOp st) := by
      intro l
      induction l with
      | nil => exact fun st h => h
      | cons o os ih => exact fun st h => ih _ (stepOp_genreInv st o h)
    exact key ops INIT (Or.inl rfl)
  · intro shows g rest q
    simp [filteredAndSearchedShows]
  · intro st g
    rfl
